import Mathlib

/-!
Verification of the llms.txt-generator change-detection and scheduling core.

This file shallowly embeds the Python source of the repository
(`backend/app/services/scheduler.py`, `backend/app/services/change_analyzer.py`,
`backend/app/services/semantic_extractor.py`, `backend/app/workers/tasks.py`,
`backend/app/config.py`) into Lean definitions and proves or refutes the
specification claims about them.  Pure Python functions become Lean functions;
Redis / database state becomes explicit state passing; Python float arithmetic
on counts and scores is modelled with exact rationals; attribute access on the
pydantic `Settings` object is modelled as a partial lookup that raises
`AttributeError` for names that are not declared fields.
-/

namespace LlmsTxt

/-! ## Scheduler constants (scheduler.py lines 25-28) -/

def DEFAULT_CHECK_INTERVAL_HOURS : Int := 24

def MIN_CHECK_INTERVAL_HOURS : Int := 6

def MAX_CHECK_INTERVAL_HOURS : Int := 168

/-! ## Adaptive backoff over the Redis interval store (scheduler.py lines 167-207)

The `schedule:intervals` hash is modelled per project as an `Option Int`
(`none` = no stored interval for the project). -/

/-- `SchedulerService.get_check_interval` (scheduler.py 167-176): stored value,
default 24 when unset. -/
def get_check_interval (store : Option Int) : Int :=
  match store with
  | some v => v
  | none => DEFAULT_CHECK_INTERVAL_HOURS

/-- `SchedulerService.set_check_interval` (scheduler.py 178-182): clamp to
`[MIN_CHECK_INTERVAL_HOURS, MAX_CHECK_INTERVAL_HOURS]` and store. -/
def set_check_interval (hours : Int) : Option Int :=
  some (max MIN_CHECK_INTERVAL_HOURS (min hours MAX_CHECK_INTERVAL_HOURS))

/-- The new-interval computation of `SchedulerService.apply_backoff`
(scheduler.py 196-201): reset to `MIN_CHECK_INTERVAL_HOURS` on change,
otherwise double and cap at `MAX_CHECK_INTERVAL_HOURS`. -/
def scheduler_backoff_interval (current : Int) (changed : Bool) : Int :=
  if changed then MIN_CHECK_INTERVAL_HOURS
  else min (current * 2) MAX_CHECK_INTERVAL_HOURS

/-- `SchedulerService.apply_backoff` (scheduler.py 184-207): compute the new
interval from the stored one, store it through `set_check_interval`, and
return it.  Result is `(new store state, returned value)`. -/
def apply_backoff (store : Option Int) (changed : Bool) : Option Int × Int :=
  let current := get_check_interval store
  let new_interval := scheduler_backoff_interval current changed
  (set_check_interval new_interval, new_interval)

/-- Worker-side backoff constants (tasks.py lines 1614-1615).  Note the
minimum here is 24, not the scheduler's 6. -/
def MIN_CHECK_INTERVAL : Int := 24

def MAX_CHECK_INTERVAL : Int := 168

/-- The interval computation of `_schedule_next_check` (tasks.py 1740-1746),
which updates `Project.check_interval_hours` in the relational store. -/
def schedule_next_check_interval (current : Int) (changed : Bool) : Int :=
  if changed then MIN_CHECK_INTERVAL
  else min (current * 2) MAX_CHECK_INTERVAL

/-- A call against the scheduler's interval store: either
`set_check_interval(project, hours)` or `apply_backoff(project, changed)`. -/
inductive IntervalOp where
  | setInterval (hours : Int)
  | backoff (changed : Bool)

/-- Run a finite sequence of interval-store operations for one project,
starting from the initial (unset) state. -/
def run_interval_ops (ops : List IntervalOp) : Option Int :=
  ops.foldl
    (fun store op =>
      match op with
      | .setInterval h => set_check_interval h
      | .backoff c => (apply_backoff store c).1)
    none

/-- The stored-interval invariant: anything reachable through
`set_check_interval` / `apply_backoff` stays inside the clamp range. -/
def IntervalInRange (store : Option Int) : Prop :=
  MIN_CHECK_INTERVAL_HOURS ≤ get_check_interval store ∧
    get_check_interval store ≤ MAX_CHECK_INTERVAL_HOURS

lemma intervalInRange_none : IntervalInRange none := by
  refine ⟨?_, ?_⟩ <;>
  · simp only [get_check_interval, DEFAULT_CHECK_INTERVAL_HOURS,
      MIN_CHECK_INTERVAL_HOURS, MAX_CHECK_INTERVAL_HOURS]
    omega

lemma intervalInRange_set (h : Int) : IntervalInRange (set_check_interval h) := by
  refine ⟨?_, ?_⟩ <;>
  · simp only [get_check_interval, set_check_interval, MIN_CHECK_INTERVAL_HOURS,
      MAX_CHECK_INTERVAL_HOURS]
    omega

lemma intervalInRange_step (store : Option Int) (op : IntervalOp) :
    IntervalInRange
      (match op with
       | .setInterval h => set_check_interval h
       | .backoff c => (apply_backoff store c).1) := by
  cases op with
  | setInterval h => exact intervalInRange_set h
  | backoff c => exact intervalInRange_set _

lemma intervalInRange_run (ops : List IntervalOp) : IntervalInRange (run_interval_ops ops) := by
  induction ops using List.reverseRecOn with
  | nil => exact intervalInRange_none
  | append_singleton ops op _ =>
      rw [run_interval_ops, List.foldl_append]
      exact intervalInRange_step _ op

/-- C5.  After any finite sequence of `apply_backoff` / `set_check_interval`
calls the stored interval read back by `get_check_interval` lies in
`[MIN_HOURS = 6, MAX_HOURS = 168]` (and an unset store reads as the default
24); `apply_backoff` with `changed = true` stores and returns exactly
`MIN_CHECK_INTERVAL_HOURS`, and with `changed = false` stores and returns
`min(current * 2, MAX_CHECK_INTERVAL_HOURS)`. -/
theorem backoff_bounds_invariant :
    get_check_interval none = DEFAULT_CHECK_INTERVAL_HOURS ∧
    ∀ ops : List IntervalOp,
      MIN_CHECK_INTERVAL_HOURS ≤ get_check_interval (run_interval_ops ops) ∧
      get_check_interval (run_interval_ops ops) ≤ MAX_CHECK_INTERVAL_HOURS ∧
      (apply_backoff (run_interval_ops ops) true).2 = MIN_CHECK_INTERVAL_HOURS ∧
      get_check_interval (apply_backoff (run_interval_ops ops) true).1 =
        MIN_CHECK_INTERVAL_HOURS ∧
      (apply_backoff (run_interval_ops ops) false).2 =
        min (get_check_interval (run_interval_ops ops) * 2) MAX_CHECK_INTERVAL_HOURS ∧
      get_check_interval (apply_backoff (run_interval_ops ops) false).1 =
        min (get_check_interval (run_interval_ops ops) * 2) MAX_CHECK_INTERVAL_HOURS := by
  refine ⟨rfl, fun ops => ?_⟩
  obtain ⟨hlo, hhi⟩ := intervalInRange_run ops
  refine ⟨hlo, hhi, rfl, ?_, rfl, ?_⟩
  · show max MIN_CHECK_INTERVAL_HOURS
        (min MIN_CHECK_INTERVAL_HOURS MAX_CHECK_INTERVAL_HOURS) =
      MIN_CHECK_INTERVAL_HOURS
    decide
  · show max MIN_CHECK_INTERVAL_HOURS
        (min (min (get_check_interval (run_interval_ops ops) * 2) MAX_CHECK_INTERVAL_HOURS)
          MAX_CHECK_INTERVAL_HOURS) =
      min (get_check_interval (run_interval_ops ops) * 2) MAX_CHECK_INTERVAL_HOURS
    simp only [MIN_CHECK_INTERVAL_HOURS, MAX_CHECK_INTERVAL_HOURS] at *
    omega

/-- C6 counterexample.  The two backoff implementations disagree on
`changed = true`: `apply_backoff` resets the interval to 6 hours while
`_schedule_next_check` resets it to 24 hours. -/
theorem backoff_implementations_disagree :
    scheduler_backoff_interval 24 true ≠ schedule_next_check_interval 24 true := by
  decide

/-- C6 amended.  The Redis-store backoff (`SchedulerService.apply_backoff`)
and the relational-store backoff (`_schedule_next_check`) compute the same
new interval whenever `changed` is false, namely `min(current * 2, 168)`;
but on `changed = true` they reset to two different constants:
`MIN_CHECK_INTERVAL_HOURS = 6` versus `MIN_CHECK_INTERVAL = 24`. -/
theorem backoff_implementations_agreement :
    ∀ current : Int,
      scheduler_backoff_interval current false = schedule_next_check_interval current false ∧
      scheduler_backoff_interval current true = MIN_CHECK_INTERVAL_HOURS ∧
      schedule_next_check_interval current true = MIN_CHECK_INTERVAL ∧
      MIN_CHECK_INTERVAL_HOURS ≠ MIN_CHECK_INTERVAL := by
  intro current
  refine ⟨?_, rfl, rfl, by decide⟩
  simp [scheduler_backoff_interval, schedule_next_check_interval,
    MAX_CHECK_INTERVAL_HOURS, MAX_CHECK_INTERVAL]

/-! ## Full-regeneration threshold (tasks.py lines 271-308) -/

/-- `_check_full_regeneration_threshold` (tasks.py 271-308).  Python float
percentages are modelled with exact rationals.  The reason strings keep the
parenthesised tag of the source's f-strings (the numeric prefix of each
f-string is formatting only and is omitted). -/
def check_full_regeneration_threshold (curated_count removed_count
    significant_change_count new_relevant_count existing_section_count
    new_section_count : ℕ) : Bool × String :=
  if curated_count = 0 then
    (false, "No existing curated pages")
  else
    let removed_pct : ℚ := (removed_count : ℚ) / (curated_count : ℚ) * 100
    if removed_pct > 50 then
      (true, "major restructure")
    else
      let significant_pct : ℚ := (significant_change_count : ℚ) / (curated_count : ℚ) * 100
      if significant_pct > 50 then
        (true, "major content overhaul")
      else
        let rule4 : Bool × String :=
          if 0 < new_section_count ∧ 0 < existing_section_count then
            if existing_section_count ≤ new_section_count then
              (true, "site pivot")
            else
              (false, "Changes within threshold for selective update")
          else
            (false, "Changes within threshold for selective update")
        if 0 < curated_count ∧ 0 < new_relevant_count then
          let new_pct : ℚ := (new_relevant_count : ℚ) / (curated_count : ℚ) * 100
          if new_pct > 30 then (true, "major expansion") else rule4
        else
          rule4

/-- C4.  With `curated_count > 0` the threshold fires exactly when one of the
four rules holds independently (removal ratio over 50%, significant ratio
over 50%, new-page ratio over 30%, or at least as many new sections as
existing ones with both positive); with `curated_count = 0` it never fires. -/
theorem full_regen_threshold_iff (c r s n es ns : ℕ) :
    (0 < c →
      ((check_full_regeneration_threshold c r s n es ns).1 = true ↔
        ((r : ℚ) / (c : ℚ) * 100 > 50 ∨
         (s : ℚ) / (c : ℚ) * 100 > 50 ∨
         (n : ℚ) / (c : ℚ) * 100 > 30 ∨
         (es ≤ ns ∧ 0 < es ∧ 0 < ns)))) ∧
    (check_full_regeneration_threshold 0 r s n es ns).1 = false := by
  constructor
  · intro hc
    have hc0 : ¬c = 0 := hc.ne'
    by_cases h1 : (50 : ℚ) < (r : ℚ) / (c : ℚ) * 100
    · simp only [check_full_regeneration_threshold, hc0, if_false, gt_iff_lt, h1, if_true]
      simp [h1]
    · by_cases h2 : (50 : ℚ) < (s : ℚ) / (c : ℚ) * 100
      · simp only [check_full_regeneration_threshold, hc0, if_false, gt_iff_lt, h1, h2,
          if_true]
        simp [h1, h2]
      · by_cases h3 : 0 < n
        · by_cases h4 : (30 : ℚ) < (n : ℚ) / (c : ℚ) * 100
          · simp only [check_full_regeneration_threshold, hc0, if_false, gt_iff_lt, h1, h2,
              hc, h3, and_self, if_true, h4]
            simp [h1, h2, h4]
          · by_cases h5 : 0 < ns ∧ 0 < es
            · by_cases h6 : es ≤ ns
              · simp only [check_full_regeneration_threshold, hc0, gt_iff_lt]
                simp only [h1, h2, h4, hc, h3, h5, h6, and_self, if_true, if_false]
                simp [h1, h2, h4, h6, h5.1, h5.2]
              · simp only [check_full_regeneration_threshold, hc0, gt_iff_lt]
                simp [h1, h2, h4, hc, h3, h5, h6]
            · have h5' : ¬(es ≤ ns ∧ 0 < es ∧ 0 < ns) := fun h => h5 ⟨h.2.2, h.2.1⟩
              simp only [check_full_regeneration_threshold, hc0, gt_iff_lt]
              simp [h1, h2, h4, hc, h3, h5, h5']
        · have hn0 : n = 0 := Nat.eq_zero_of_not_pos h3
          have h4 : ¬((30 : ℚ) < (n : ℚ) / (c : ℚ) * 100) := by
            subst hn0; simp
          by_cases h5 : 0 < ns ∧ 0 < es
          · by_cases h6 : es ≤ ns
            · simp only [check_full_regeneration_threshold, hc0, gt_iff_lt]
              simp only [h1, h2, h3, h5, h6, and_self, if_true, if_false, and_false,
                false_and]
              simp [h1, h2, h4, h6, h5.1, h5.2]
            · simp only [check_full_regeneration_threshold, hc0, gt_iff_lt]
              simp [h1, h2, h3, h4, h5, h6]
          · have h5' : ¬(es ≤ ns ∧ 0 < es ∧ 0 < ns) := fun h => h5 ⟨h.2.2, h.2.1⟩
            simp only [check_full_regeneration_threshold, hc0, gt_iff_lt]
            simp [h1, h2, h3, h4, h5, h5']
  · unfold check_full_regeneration_threshold
    simp

/-- Witness for `full_regen_threshold_iff` at a concrete input: four curated
pages of which three were removed (75% > 50%) force full regeneration. -/
theorem full_regen_threshold_iff_witness :
    (check_full_regeneration_threshold 4 3 0 0 2 0).1 = true ↔
      ((3 : ℚ) / (4 : ℚ) * 100 > 50 ∨
       (0 : ℚ) / (4 : ℚ) * 100 > 50 ∨
       (0 : ℚ) / (4 : ℚ) * 100 > 30 ∨
       (2 ≤ 0 ∧ 0 < 2 ∧ 0 < 0)) :=
  (full_regen_threshold_iff 4 3 0 0 2 0).1 (by decide)

/-! ## Application settings (config.py lines 9-74)

`Settings` is a pydantic `BaseSettings` class; its declared fields are exactly
the ones below.  Accessing any other attribute on a `Settings` instance raises
`AttributeError`, which is modelled by `settings_attr` returning `none`. -/

structure Settings where
  app_name : String
  debug : Bool
  environment : String
  database_url : String
  redis_url : String
  secret_key : String
  access_token_expire_minutes : Int
  algorithm : String
  cors_origins : List String
  max_pages_per_crawl : Int
  crawler_backend : String
  firecrawl_api_key : Option String
  firecrawl_wait_for_ms : Int
  default_check_interval_hours : Int
  min_check_interval_hours : Int
  max_check_interval_days : Int
  full_rescrape_interval_hours : Int
  full_rescrape_backoff_enabled : Bool
  lightweight_check_enabled : Bool
  lightweight_check_interval_minutes : Int
  lightweight_concurrent_requests : Int
  lightweight_request_delay_ms : Int
  lightweight_change_threshold_percent : Int
  lightweight_significance_threshold : Int
  task_queue_backend : String
  openai_api_key : Option String
  anthropic_api_key : Option String
  llm_provider : String
  llm_model : String

/-- A Python attribute value, as far as the modelled code inspects it. -/
inductive PyValue where
  | int (n : Int)
  | str (s : String)
  | bool (b : Bool)
  | optStr (o : Option String)
  | strList (l : List String)

/-- A Python exception raised by the modelled code. -/
inductive PyErr where
  | attributeError (attr : String)
  | typeError (attr : String)
deriving DecidableEq

/-- Python `getattr` on a `Settings` instance: defined for exactly the fields
declared in config.py, `none` (AttributeError) for everything else.  Note that
`full_rescrape_cooldown_hours` is not among the declared fields. -/
def settings_attr (s : Settings) (name : String) : Option PyValue :=
  match name with
  | "app_name" => some (.str s.app_name)
  | "debug" => some (.bool s.debug)
  | "environment" => some (.str s.environment)
  | "database_url" => some (.str s.database_url)
  | "redis_url" => some (.str s.redis_url)
  | "secret_key" => some (.str s.secret_key)
  | "access_token_expire_minutes" => some (.int s.access_token_expire_minutes)
  | "algorithm" => some (.str s.algorithm)
  | "cors_origins" => some (.strList s.cors_origins)
  | "max_pages_per_crawl" => some (.int s.max_pages_per_crawl)
  | "crawler_backend" => some (.str s.crawler_backend)
  | "firecrawl_api_key" => some (.optStr s.firecrawl_api_key)
  | "firecrawl_wait_for_ms" => some (.int s.firecrawl_wait_for_ms)
  | "default_check_interval_hours" => some (.int s.default_check_interval_hours)
  | "min_check_interval_hours" => some (.int s.min_check_interval_hours)
  | "max_check_interval_days" => some (.int s.max_check_interval_days)
  | "full_rescrape_interval_hours" => some (.int s.full_rescrape_interval_hours)
  | "full_rescrape_backoff_enabled" => some (.bool s.full_rescrape_backoff_enabled)
  | "lightweight_check_enabled" => some (.bool s.lightweight_check_enabled)
  | "lightweight_check_interval_minutes" => some (.int s.lightweight_check_interval_minutes)
  | "lightweight_concurrent_requests" => some (.int s.lightweight_concurrent_requests)
  | "lightweight_request_delay_ms" => some (.int s.lightweight_request_delay_ms)
  | "lightweight_change_threshold_percent" =>
      some (.int s.lightweight_change_threshold_percent)
  | "lightweight_significance_threshold" =>
      some (.int s.lightweight_significance_threshold)
  | "task_queue_backend" => some (.str s.task_queue_backend)
  | "openai_api_key" => some (.optStr s.openai_api_key)
  | "anthropic_api_key" => some (.optStr s.anthropic_api_key)
  | "llm_provider" => some (.str s.llm_provider)
  | "llm_model" => some (.str s.llm_model)
  | _ => none

/-- Attribute access used as an integer (raises `AttributeError` when the
attribute does not exist). -/
def settings_attr_int (s : Settings) (name : String) : Except PyErr Int :=
  match settings_attr s name with
  | some (.int n) => .ok n
  | some _ => .error (.typeError name)
  | none => .error (.attributeError name)

/-- Attribute access used as a string. -/
def settings_attr_str (s : Settings) (name : String) : Except PyErr String :=
  match settings_attr s name with
  | some (.str v) => .ok v
  | some _ => .error (.typeError name)
  | none => .error (.attributeError name)

/-! ## Lightweight rescrape trigger (tasks.py lines 2111-2150) -/

/-- The columns of a `Project` row touched by `_trigger_lightweight_rescrape`.
Times are epoch seconds as rationals. -/
structure ProjectRow where
  url : String
  status : String
  last_lightweight_rescrape_at : Option ℚ
  check_interval_hours : Option Int
  next_check_at : Option ℚ

/-- Result dict of `_trigger_lightweight_rescrape`, together with its side
effects on the session (new crawl job, updated project row). -/
structure TriggerOutcome where
  triggered : Bool
  reason : Option String
  remaining_hours : Option ℚ
  job_created : Bool
  project : ProjectRow

/-- Python `x or d` on an optional integer column: `None` and `0` both fall
through to the default. -/
def py_or_int (o : Option Int) (d : Int) : Int :=
  match o with
  | some v => if v = 0 then d else v
  | none => d

/-- Trigger path of `_trigger_lightweight_rescrape` (tasks.py 2133-2150):
insert a crawl job, set status to pending, stamp
`last_lightweight_rescrape_at`, reset `next_check_at`, return
`triggered = true`. -/
def trigger_rescrape_proceed (now : ℚ) (project : ProjectRow) : TriggerOutcome :=
  { triggered := true
    reason := none
    remaining_hours := none
    job_created := true
    project :=
      { project with
          status := "pending"
          last_lightweight_rescrape_at := some now
          next_check_at :=
            some (now + (py_or_int project.check_interval_hours 24) * 3600) } }

/-- `_trigger_lightweight_rescrape` (tasks.py 2111-2150).  The first statement
reads `settings.full_rescrape_cooldown_hours`; when that attribute does not
exist the whole call raises.  The cooldown consulted afterwards is the
project's own `last_lightweight_rescrape_at` timestamp, not the scheduler's
`schedule:cooldowns` key (the function receives no scheduler state at all). -/
def trigger_lightweight_rescrape (s : Settings) (now : ℚ) (project : ProjectRow) :
    Except PyErr TriggerOutcome := do
  let cooldown_hours ← settings_attr_int s "full_rescrape_cooldown_hours"
  match project.last_lightweight_rescrape_at with
  | some last_at =>
      let cooldown : ℚ := (cooldown_hours : ℚ) * 3600
      let time_since_last := now - last_at
      if time_since_last < cooldown then
        let remaining := cooldown - time_since_last
        pure
          { triggered := false
            reason := some "cooldown"
            remaining_hours := some (remaining / 3600)
            job_created := false
            project := project }
      else
        pure (trigger_rescrape_proceed now project)
  | none => pure (trigger_rescrape_proceed now project)

/-- The attributes read by `SchedulerService.__init__` (scheduler.py 34-38),
in source order. -/
structure SchedulerInitState where
  redis_url : String
  lightweight_interval_minutes : Int
  cooldown_hours : Int

/-- `SchedulerService.__init__` (scheduler.py 34-38): reads `redis_url`,
`lightweight_check_interval_minutes` and `full_rescrape_cooldown_hours` off
the settings object. -/
def scheduler_service_init (s : Settings) : Except PyErr SchedulerInitState := do
  let r ← settings_attr_str s "redis_url"
  let l ← settings_attr_int s "lightweight_check_interval_minutes"
  let c ← settings_attr_int s "full_rescrape_cooldown_hours"
  pure { redis_url := r, lightweight_interval_minutes := l, cooldown_hours := c }

/-- C3.  `Settings` declares no `full_rescrape_cooldown_hours` field, so every
call to `_trigger_lightweight_rescrape` raises `AttributeError` before doing
anything (in particular it can never return `triggered = true`), and every
`SchedulerService()` construction raises the same `AttributeError`. -/
theorem missing_cooldown_setting_raises :
    (∀ s : Settings, settings_attr s "full_rescrape_cooldown_hours" = none) ∧
    (∀ (s : Settings) (now : ℚ) (p : ProjectRow),
      trigger_lightweight_rescrape s now p =
        .error (.attributeError "full_rescrape_cooldown_hours")) ∧
    (∀ s : Settings,
      scheduler_service_init s =
        .error (.attributeError "full_rescrape_cooldown_hours")) :=
  ⟨fun _ => rfl, fun _ _ _ => rfl, fun _ => rfl⟩

/-- C1 (code bug evidence).  No call to `_trigger_lightweight_rescrape` ever
returns a result dict at all — in particular it neither returns the
`triggered = false / reason = cooldown` dict the spec requires during a
cooldown window, nor `triggered = true` outside one — because the read of the
undeclared `settings.full_rescrape_cooldown_hours` raises first.  The
function also receives no scheduler cooldown state: `set_cooldown` on the
scheduler cannot influence it. -/
theorem trigger_rescrape_never_returns :
    ∀ (s : Settings) (now : ℚ) (p : ProjectRow) (out : TriggerOutcome),
      trigger_lightweight_rescrape s now p ≠ .ok out := by
  intro s now p out h
  have : Except.error (PyErr.attributeError "full_rescrape_cooldown_hours") =
      (Except.ok out : Except PyErr TriggerOutcome) := h
  exact absurd this (by simp)

/-! ## Due-check dispatch (scheduler.py lines 70-95 and 133-156)

`get_due_full_checks` reads the due members with `ZRANGEBYSCORE` and then
removes them with `ZREM` commands issued in a separate pipeline.  The read and
the removals are two distinct Redis round trips, so two concurrent dispatchers
interleave at the command level.  The sorted set is modelled as an association
list ordered by score, each Redis command as one atomic step. -/

/-- A Redis sorted set: members with scores, kept in score order. -/
abbrev RedisZSet := List (String × ℚ)

/-- `ZRANGEBYSCORE key min max LIMIT 0 num` (scheduler.py line 84). -/
def zrangebyscore (st : RedisZSet) (min_score max_score : ℚ) (num : Nat) : List String :=
  ((st.filter fun e => decide (min_score ≤ e.2) && decide (e.2 ≤ max_score)).map
    Prod.fst).take num

/-- `ZREM key member` (scheduler.py line 92). -/
def zrem (st : RedisZSet) (member : String) : RedisZSet :=
  st.filter fun e => e.1 != member

/-- The read phase of `get_due_full_checks` (scheduler.py lines 81-87). -/
def get_due_checks_read (st : RedisZSet) (now : ℚ) (limit : Nat) : List String :=
  zrangebyscore st 0 now limit

/-- The removal phase of `get_due_full_checks` (scheduler.py lines 90-93): one
pipelined `ZREM` per returned member. -/
def get_due_checks_remove (st : RedisZSet) (due : List String) : RedisZSet :=
  due.foldl zrem st

/-- The per-dispatcher state of one in-flight `get_due_full_checks` call:
`due = none` before the read step; `result` set once the call returned. -/
structure Dispatcher where
  due : Option (List String)
  result : Option (List String)

/-- Two concurrent dispatchers over one scheduler sorted set. -/
structure DispatchSystem where
  redis : RedisZSet
  d1 : Dispatcher
  d2 : Dispatcher

/-- Execute the next atomic Redis round trip of one dispatcher's
`get_due_full_checks` call: first the `ZRANGEBYSCORE` read, then the `ZREM`
pipeline after which the call returns its list. -/
def dispatcher_step (now : ℚ) (limit : Nat) (redis : RedisZSet) (d : Dispatcher) :
    RedisZSet × Dispatcher :=
  match d.due with
  | none => (redis, { d with due := some (get_due_checks_read redis now limit) })
  | some due =>
      (get_due_checks_remove redis due, { due := some due, result := some due })

/-- Run an interleaving of the two dispatchers; `true` advances dispatcher 1,
`false` advances dispatcher 2. -/
def run_dispatch_schedule (now : ℚ) (limit : Nat) :
    List Bool → DispatchSystem → DispatchSystem
  | [], sys => sys
  | b :: rest, sys =>
      if b then
        let (r, d1) := dispatcher_step now limit sys.redis sys.d1
        run_dispatch_schedule now limit rest { sys with redis := r, d1 := d1 }
      else
        let (r, d2) := dispatcher_step now limit sys.redis sys.d2
        run_dispatch_schedule now limit rest { sys with redis := r, d2 := d2 }

/-- The initial system: one project `p` due at score 5, both dispatchers idle. -/
def dispatch_example_init : DispatchSystem :=
  { redis := [("p", 5)]
    d1 := { due := none, result := none }
    d2 := { due := none, result := none } }

/-- C2 (code bug evidence).  `get_due_full_checks` is not atomic: under the
interleaving read₁, read₂, remove₁, remove₂ (both reads before either
pipelined removal) both concurrent dispatchers return the same due project
`p`, so one tick dispatches `p` twice, contradicting both the claim and the
function's own docstring (which says it removes atomically using `ZPOPMIN`;
the body uses `ZRANGEBYSCORE` followed by a separate `ZREM` pipeline). -/
theorem get_due_checks_double_dispatch :
    (run_dispatch_schedule 10 100 [true, false, true, false]
        dispatch_example_init).d1.result = some ["p"] ∧
    (run_dispatch_schedule 10 100 [true, false, true, false]
        dispatch_example_init).d2.result = some ["p"] ∧
    get_due_checks_read dispatch_example_init.redis 10 100 = ["p"] := by
  refine ⟨?_, ?_, ?_⟩ <;> rfl

/-! ## Batch change significance (change_analyzer.py lines 26-73) -/

/-- One entry of the `changed_pages` argument of
`ChangeAnalyzer.analyze_batch_significance`. -/
structure ChangedPage where
  url : String
  baseline_html : String
  current_html : String

/-- The claim-relevant keys of the result dict of
`analyze_batch_significance` (the telemetry-only keys `change_ratio`,
`pages_analyzed` and `page_scores` are omitted). -/
structure BatchSignificance where
  significant : Bool
  score : ℚ
  reason : String
deriving DecidableEq

/-- Python `round` to the nearest integer, ties to even (used by
`round(x, 1)`). -/
def py_round_half_even (q : ℚ) : ℤ :=
  let f := ⌊q⌋
  let frac := q - (f : ℚ)
  if frac < 1 / 2 then f
  else if 1 / 2 < frac then f + 1
  else if f % 2 = 0 then f else f + 1

/-- Python `round(q, 1)`. -/
def py_round1 (q : ℚ) : ℚ :=
  (py_round_half_even (q * 10) : ℚ) / 10

/-- `ChangeAnalyzer.analyze_batch_significance` (change_analyzer.py 26-73).
The per-page scorer `ChangeAnalyzer._analyze_single_page` is passed as the
function argument `analyze_single_page`; Python float arithmetic on scores is
modelled with exact rationals. -/
def analyze_batch_significance (analyze_single_page : String → String → Int)
    (significance_threshold : ℚ) (changed_pages : List ChangedPage)
    (total_pages : Nat) (bulk_threshold_percent : ℚ) : BatchSignificance :=
  if changed_pages.isEmpty then
    { significant := false, score := 0, reason := "no_changes" }
  else
    let change_pct : ℚ :=
      if 0 < total_pages then (changed_pages.length : ℚ) / (total_pages : ℚ) else 0
    if change_pct > bulk_threshold_percent / 100 then
      { significant := true, reason := "bulk_change", score := 100 }
    else
      let scores := changed_pages.map fun p =>
        analyze_single_page p.baseline_html p.current_html
      let avg_score : ℚ :=
        if ¬scores.isEmpty then
          ((scores.map fun z : Int => (z : ℚ)).sum) / (scores.length : ℚ)
        else 0
      let is_significant := significance_threshold ≤ avg_score
      { significant := is_significant
        score := py_round1 avg_score
        reason := if is_significant then "cumulative_drift" else "below_threshold" }

/-- The mean per-page drift score of a batch. -/
def batch_mean_score (analyze_single_page : String → String → Int)
    (changed_pages : List ChangedPage) : ℚ :=
  ((changed_pages.map fun p =>
      ((analyze_single_page p.baseline_html p.current_html : ℚ))).sum) /
    (changed_pages.length : ℚ)

/-- C8.  For any per-page scorer: an empty changed-page list is never
significant; with a non-empty list and `total_pages > 0`, a change fraction
above `bulk_threshold_percent`% yields significance with score 100 and reason
`bulk_change`; otherwise the batch is significant exactly when the mean
per-page drift score reaches `significance_threshold`, in which case the
reason is `cumulative_drift`. -/
theorem analyze_batch_significance_spec
    (analyze_single_page : String → String → Int) (thr : ℚ)
    (pages : List ChangedPage) (total : Nat) (bulk : ℚ) :
    (analyze_batch_significance analyze_single_page thr [] total bulk).significant
        = false ∧
    (pages ≠ [] → 0 < total →
      (((pages.length : ℚ) / (total : ℚ) > bulk / 100 →
        analyze_batch_significance analyze_single_page thr pages total bulk =
          { significant := true, reason := "bulk_change", score := 100 }) ∧
      (¬((pages.length : ℚ) / (total : ℚ) > bulk / 100) →
        ((analyze_batch_significance analyze_single_page thr pages total bulk).significant
            ↔ thr ≤ batch_mean_score analyze_single_page pages) ∧
        ((analyze_batch_significance analyze_single_page thr pages total bulk).significant
            → (analyze_batch_significance analyze_single_page thr pages total
                bulk).reason = "cumulative_drift")))) := by
  constructor
  · rfl
  · intro hne htot
    have hne' : ¬pages.isEmpty := by simpa [List.isEmpty_iff] using hne
    constructor
    · intro hbulk
      unfold analyze_batch_significance
      rw [if_neg (by simpa using hne')]
      simp only [htot, if_true]
      rw [if_pos hbulk]
    · intro hbulk
      unfold analyze_batch_significance
      rw [if_neg (by simpa using hne')]
      simp only [htot, if_true]
      rw [if_neg hbulk]
      have hme : ((pages.map fun p =>
          analyze_single_page p.baseline_html p.current_html).isEmpty) = false := by
        simp [List.isEmpty_iff, hne]
      constructor
      · show decide _ = true ↔ _
        simp only [decide_eq_true_eq, hme, Bool.not_false, if_true, Bool.false_eq_true,
          not_false_iff, List.length_map, batch_mean_score]
        rw [List.map_map]
        exact Iff.rfl
      · intro h
        show (if thr ≤ _ then "cumulative_drift" else "below_threshold") = _
        exact if_pos (of_decide_eq_true h)

/-- Witness for `analyze_batch_significance_spec`: a single changed page out
of two with a constant per-page score of 50 and threshold 30 is significant
by cumulative drift (change fraction 50% is not above a bulk threshold of
60%). -/
theorem analyze_batch_significance_spec_witness :
    ((analyze_batch_significance (fun _ _ => 50) 30 [⟨"u", "old", "new"⟩] 2
        60).significant ↔
      (30 : ℚ) ≤ batch_mean_score (fun _ _ => 50) [⟨"u", "old", "new"⟩]) ∧
    ((analyze_batch_significance (fun _ _ => 50) 30 [⟨"u", "old", "new"⟩] 2
        60).significant →
      (analyze_batch_significance (fun _ _ => 50) 30 [⟨"u", "old", "new"⟩] 2
        60).reason = "cumulative_drift") :=
  ((analyze_batch_significance_spec (fun _ _ => 50) 30 [⟨"u", "old", "new"⟩] 2
      60).2 (by simp) (by decide)).2 (by norm_num)

/-! ## URL normalization and inventory diff (tasks.py lines 114-182) -/

/-- `_normalize_url` (tasks.py 114-116): `url.rstrip("/").lower()`.  The
`rstrip` drops every trailing `'/'`; `.lower()` maps each character to lower
case (modelled for the basic-latin range that URLs use). -/
def normalize_url (url : String) : String :=
  ⟨((url.data.reverse.dropWhile (· == '/')).reverse).map Char.toLower⟩

/-- The return value of `_store_url_inventory` (tasks.py 119-182).  The Python
sets of normalized keys are modelled as deduplicated lists; only membership in
the three classes is meaningful. -/
structure InventoryDiff where
  new_keys : List String
  removed_keys : List String
  existing_keys : List String
  total_stored : Nat

/-- `_store_url_inventory` (tasks.py 119-182), restricted to its pure
classification content: normalize the stored and incoming URL sets and split
incoming into new / removed / existing by normalized-key membership.  Falsy
(empty) incoming URLs are skipped exactly as in the source's dict
comprehension. -/
def store_url_inventory (stored_urls incoming_urls : List String) : InventoryDiff :=
  let existing_key_set := (stored_urls.map normalize_url).dedup
  let incoming_key_set := ((incoming_urls.filter (fun u => u != "")).map normalize_url).dedup
  { new_keys := incoming_key_set.filter fun k => decide (k ∉ existing_key_set)
    removed_keys := existing_key_set.filter fun k => decide (k ∉ incoming_key_set)
    existing_keys := existing_key_set.filter fun k => decide (k ∈ incoming_key_set)
    total_stored := incoming_key_set.length }

/-- C9 counterexample.  `_normalize_url` does not strip `#fragments` (the
fragment survives, merely lowercased), and it does strip the trailing slash
of a root URL. -/
theorem normalize_url_counterexample :
    normalize_url "https://Example.com/Docs#Intro" = "https://example.com/docs#intro" ∧
    normalize_url "https://example.com/" = "https://example.com" ∧
    ("https://example.com/docs#intro" : String) ≠ "https://example.com/docs" := by
  refine ⟨by decide, by decide, by decide⟩

lemma char_toNat_ofNat_valid (n : Nat) (h : n.isValidChar) : (Char.ofNat n).toNat = n := by
  rw [Char.ofNat, dif_pos h]
  rfl

lemma toLower_def (c : Char) :
    Char.toLower c =
      if 65 ≤ c.toNat ∧ c.toNat ≤ 90 then Char.ofNat (c.toNat + 32) else c := rfl

lemma toLower_toNat (c : Char) :
    (Char.toLower c).toNat =
      if 65 ≤ c.toNat ∧ c.toNat ≤ 90 then c.toNat + 32 else c.toNat := by
  rw [toLower_def]
  split
  · rename_i h
    exact char_toNat_ofNat_valid _ (Or.inl (by omega))
  · rfl

lemma toLower_not_ascii_upper (c : Char) :
    ¬(65 ≤ (Char.toLower c).toNat ∧ (Char.toLower c).toNat ≤ 90) := by
  rw [toLower_toNat]
  split <;> omega

lemma toLower_of_not_upper (c : Char) (h : ¬(65 ≤ c.toNat ∧ c.toNat ≤ 90)) :
    Char.toLower c = c := by
  unfold Char.toLower
  rw [if_neg (by omega)]

lemma toLower_eq_low_iff (c d : Char) (hd : d.toNat < 65) :
    Char.toLower c = d ↔ c = d := by
  constructor
  · intro h
    by_cases hu : 65 ≤ c.toNat ∧ c.toNat ≤ 90
    · exfalso
      have := toLower_toNat c
      rw [if_pos hu] at this
      have hdt : (Char.toLower c).toNat = d.toNat := by rw [h]
      omega
    · rwa [toLower_of_not_upper c hu] at h
  · intro h
    subst h
    exact toLower_of_not_upper c (by omega)

lemma head?_dropWhile {α : Type} (p : α → Bool) (l : List α) (c : α)
    (h : (l.dropWhile p).head? = some c) : p c = false := by
  induction l with
  | nil => simp at h
  | cons x xs ih =>
      rw [List.dropWhile_cons] at h
      by_cases hp : p x
      · rw [if_pos hp] at h
        exact ih h
      · rw [if_neg hp] at h
        simp at h
        subst h
        simpa using hp

/-- C9 amended.  `_normalize_url` lowercases and strips every trailing slash
(including the one of a root URL); it preserves `#` fragments rather than
stripping them; and the inventory diff of `_store_url_inventory` classifies a
crawled URL by membership of its normalized form in the normalized stored
set, so comparisons are insensitive to case and trailing slashes but
sensitive to fragments. -/
theorem normalize_url_amended (u : String) (stored incoming : List String) :
    normalize_url (u ++ "/") = normalize_url u ∧
    (normalize_url u).data.getLast? ≠ some '/' ∧
    ('#' ∈ (normalize_url u).data ↔ '#' ∈ u.data) ∧
    (∀ c ∈ (normalize_url u).data, ¬(65 ≤ c.toNat ∧ c.toNat ≤ 90)) ∧
    (u ∈ incoming → u ≠ "" →
      (normalize_url u ∈ (store_url_inventory stored incoming).new_keys ↔
        normalize_url u ∉ stored.map normalize_url)) := by
  refine ⟨?_, ?_, ?_, ?_, ?_⟩
  · show (⟨(((u ++ "/").data.reverse.dropWhile (· == '/')).reverse).map Char.toLower⟩ :
        String) = _
    rw [String.data_append, show ("/" : String).data = ['/'] from rfl]
    rw [show (u.data ++ ['/']).reverse = '/' :: u.data.reverse by
      rw [List.reverse_append]; rfl]
    rw [List.dropWhile_cons, if_pos (by decide)]
    rfl
  · intro h
    rw [show (normalize_url u).data =
        ((u.data.reverse.dropWhile (· == '/')).map Char.toLower).reverse by
      rw [← List.map_reverse]
      rfl] at h
    rw [List.getLast?_reverse, List.head?_map] at h
    match hh : (u.data.reverse.dropWhile (· == '/')).head? with
    | none => rw [hh] at h; simp at h
    | some c =>
        rw [hh] at h
        have hc : Char.toLower c = '/' := by simpa using h
        have : c = '/' := (toLower_eq_low_iff c '/' (by decide)).mp hc
        subst this
        have := head?_dropWhile (· == '/') u.data.reverse _ hh
        simp at this
  · show '#' ∈ (((u.data.reverse.dropWhile (· == '/')).reverse).map Char.toLower) ↔ _
    rw [List.mem_map]
    constructor
    · rintro ⟨c, hc, hlow⟩
      have : c = '#' := (toLower_eq_low_iff c '#' (by decide)).mp hlow
      subst this
      rw [List.mem_reverse] at hc
      have hsub := (List.dropWhile_sublist (fun x => x == '/')
        (l := u.data.reverse)).subset hc
      rwa [List.mem_reverse] at hsub
    · intro hu
      refine ⟨'#', ?_, (toLower_eq_low_iff '#' '#' (by decide)).mpr rfl⟩
      rw [List.mem_reverse]
      have hsplit := List.takeWhile_append_dropWhile (p := (· == '/')) (l := u.data.reverse)
      have hu' : '#' ∈ u.data.reverse := List.mem_reverse.mpr hu
      rw [← hsplit] at hu'
      rcases List.mem_append.mp hu' with h | h
      · exact absurd (List.mem_takeWhile_imp h) (by simp)
      · exact h
  · intro c hc
    show ¬(65 ≤ c.toNat ∧ c.toNat ≤ 90)
    have : c ∈ ((u.data.reverse.dropWhile (· == '/')).reverse).map Char.toLower := hc
    rw [List.mem_map] at this
    obtain ⟨d, _, hd⟩ := this
    subst hd
    exact toLower_not_ascii_upper d
  · intro hmem hne
    simp only [store_url_inventory]
    rw [List.mem_filter]
    have hin : normalize_url u ∈
        ((incoming.filter (fun v => v != "")).map normalize_url).dedup := by
      rw [List.mem_dedup, List.mem_map]
      exact ⟨u, List.mem_filter.mpr ⟨hmem, by simpa using hne⟩, rfl⟩
    simp only [hin, true_and, decide_eq_true_eq, List.mem_dedup]

/-- Witness for `normalize_url_amended` at a concrete URL: a mixed-case URL
with a fragment, stored inventory of one other URL, and itself incoming. -/
theorem normalize_url_amended_witness :
    normalize_url ("https://A.com/Docs#X" ++ "/") = normalize_url "https://A.com/Docs#X" ∧
    (normalize_url "https://A.com/Docs#X" ∈
        (store_url_inventory ["https://b.com"] ["https://A.com/Docs#X"]).new_keys ↔
      normalize_url "https://A.com/Docs#X" ∉ ["https://b.com"].map normalize_url) :=
  have h := normalize_url_amended "https://A.com/Docs#X" ["https://b.com"]
    ["https://A.com/Docs#X"]
  ⟨h.1, h.2.2.2.2 (by simp) (by simp)⟩

/-! ## SHA-256 (hashlib.sha256 as used by semantic_extractor.py line 41 and
tasks.py line 1084)

A bit-faithful executable implementation over `Nat` with explicit reduction
modulo `2 ^ 32`, so concrete hashes evaluate inside the kernel. -/

def w32 (n : Nat) : Nat := n % 4294967296

def rotr32 (x k : Nat) : Nat := w32 ((x >>> k) ||| (x <<< (32 - k)))

def not32 (x : Nat) : Nat := x ^^^ 4294967295

def big_sigma0 (x : Nat) : Nat := (rotr32 x 2) ^^^ (rotr32 x 13) ^^^ (rotr32 x 22)
def big_sigma1 (x : Nat) : Nat := (rotr32 x 6) ^^^ (rotr32 x 11) ^^^ (rotr32 x 25)
def small_sigma0 (x : Nat) : Nat := (rotr32 x 7) ^^^ (rotr32 x 18) ^^^ (x >>> 3)
def small_sigma1 (x : Nat) : Nat := (rotr32 x 17) ^^^ (rotr32 x 19) ^^^ (x >>> 10)
def ch32 (x y z : Nat) : Nat := (x &&& y) ^^^ ((not32 x) &&& z)
def maj32 (x y z : Nat) : Nat := (x &&& y) ^^^ (x &&& z) ^^^ (y &&& z)

/-- The 64 round constants of FIPS 180-4, written in decimal. -/
def sha256_k : List Nat :=
  [1116352408, 1899447441, 3049323471, 3921009573, 961987163,
   1508970993, 2453635748, 2870763221, 3624381080, 310598401,
   607225278, 1426881987, 1925078388, 2162078206, 2614888103,
   3248222580, 3835390401, 4022224774, 264347078, 604807628,
   770255983, 1249150122, 1555081692, 1996064986, 2554220882,
   2821834349, 2952996808, 3210313671, 3336571891, 3584528711,
   113926993, 338241895, 666307205, 773529912, 1294757372,
   1396182291, 1695183700, 1986661051, 2177026350, 2456956037,
   2730485921, 2820302411, 3259730800, 3345764771, 3516065817,
   3600352804, 4094571909, 275423344, 430227734, 506948616,
   659060556, 883997877, 958139571, 1322822218, 1537002063,
   1747873779, 1955562222, 2024104815, 2227730452, 2361852424,
   2428436474, 2756734187, 3204031479, 3329325298]

/-- The initial hash state of FIPS 180-4, written in decimal. -/
def sha256_h0 : List Nat :=
  [1779033703, 3144134277, 1013904242, 2773480762, 1359893119,
   2600822924, 528734635, 1541459225]

def nat_to_bytes_be (num_bytes n : Nat) : List Nat :=
  (List.range num_bytes).map fun i => (n >>> (8 * (num_bytes - 1 - i))) % 256

def sha256_pad (msg : List Nat) : List Nat :=
  let r := (msg.length + 1) % 64
  let zeros := if r ≤ 56 then 56 - r else 56 + 64 - r
  msg ++ [0x80] ++ List.replicate zeros 0 ++ nat_to_bytes_be 8 (msg.length * 8)

def bytes_to_words : List Nat → List Nat
  | b1 :: b2 :: b3 :: b4 :: rest =>
      ((b1 <<< 24) ||| (b2 <<< 16) ||| (b3 <<< 8) ||| b4) :: bytes_to_words rest
  | _ => []

def to_blocks : List Nat → List (List Nat)
  | [] => []
  | w0 :: w1 :: w2 :: w3 :: w4 :: w5 :: w6 :: w7 ::
    w8 :: w9 :: w10 :: w11 :: w12 :: w13 :: w14 :: w15 :: rest =>
      [w0, w1, w2, w3, w4, w5, w6, w7, w8, w9, w10, w11, w12, w13, w14, w15] ::
        to_blocks rest
  | l => [l]

def extend_schedule (block : List Nat) : List Nat :=
  (List.range 48).foldl
    (fun acc _ =>
      let t := acc.length
      acc ++ [w32 (small_sigma1 (acc.getD (t - 2) 0) + acc.getD (t - 7) 0 +
        small_sigma0 (acc.getD (t - 15) 0) + acc.getD (t - 16) 0)])
    block

structure Hash8 where
  a : Nat
  b : Nat
  c : Nat
  d : Nat
  e : Nat
  f : Nat
  g : Nat
  h : Nat

def compress_block (hs : List Nat) (block : List Nat) : List Nat :=
  let w := extend_schedule block
  let init : Hash8 :=
    { a := hs.getD 0 0, b := hs.getD 1 0, c := hs.getD 2 0, d := hs.getD 3 0,
      e := hs.getD 4 0, f := hs.getD 5 0, g := hs.getD 6 0, h := hs.getD 7 0 }
  let final := (sha256_k.zip w).foldl
    (fun s kw =>
      let t1 := w32 (s.h + big_sigma1 s.e + ch32 s.e s.f s.g + kw.1 + kw.2)
      let t2 := w32 (big_sigma0 s.a + maj32 s.a s.b s.c)
      { a := w32 (t1 + t2), b := s.a, c := s.b, d := s.c,
        e := w32 (s.d + t1), f := s.e, g := s.f, h := s.g })
    init
  [w32 (hs.getD 0 0 + final.a), w32 (hs.getD 1 0 + final.b),
   w32 (hs.getD 2 0 + final.c), w32 (hs.getD 3 0 + final.d),
   w32 (hs.getD 4 0 + final.e), w32 (hs.getD 5 0 + final.f),
   w32 (hs.getD 6 0 + final.g), w32 (hs.getD 7 0 + final.h)]

def sha256_words (msg : List Nat) : List Nat :=
  (to_blocks (bytes_to_words (sha256_pad msg))).foldl compress_block sha256_h0

def hex_digit (n : Nat) : Char :=
  "0123456789abcdef".data.getD n '0'

def to_hex8 (n : Nat) : String :=
  ⟨(List.range 8).map fun i => hex_digit ((n >>> (4 * (7 - i))) % 16)⟩

def encode_utf8_char (c : Char) : List Nat :=
  let n := c.toNat
  if n < 0x80 then [n]
  else if n < 0x800 then
    [0xC0 ||| (n >>> 6), 0x80 ||| (n &&& 0x3F)]
  else if n < 0x10000 then
    [0xE0 ||| (n >>> 12), 0x80 ||| ((n >>> 6) &&& 0x3F), 0x80 ||| (n &&& 0x3F)]
  else
    [0xF0 ||| (n >>> 18), 0x80 ||| ((n >>> 12) &&& 0x3F),
     0x80 ||| ((n >>> 6) &&& 0x3F), 0x80 ||| (n &&& 0x3F)]

def utf8_bytes (s : String) : List Nat :=
  s.data.flatMap encode_utf8_char

def sha256_hex (s : String) : String :=
  String.join ((sha256_words (utf8_bytes s)).map to_hex8)

/-! ## Recrawl persistence and the no-op path (tasks.py lines 700-1197)

The database state of one project, restricted to the tables the tail of
`initial_crawl` touches.  `initial_crawl` always persists new `Page` rows at
`max_version + 1` (lines 1071-1100); on the no-op branch (line 1192-1197) it
commits only those rows and leaves the artifact, its version history and the
curated rows untouched. -/

/-- One crawled page record as returned by the crawler provider. -/
structure PageData where
  url : String
  title : String
  description : Option String
  markdown : String
  first_paragraph : Option String
  content_hash : Option String
  depth : Int
deriving DecidableEq

/-- A `Page` table row (models/page.py, fields touched by tasks.py
1086-1100). -/
structure PageRow where
  url : String
  title : String
  description : Option String
  first_paragraph : Option String
  content_hash : Option String
  baseline_html_hash : Option String
  depth : Int
  version : Int
  etag : Option String
  last_modified_header : Option String
deriving DecidableEq

/-- A `CuratedPage` table row (fields the planner reads). -/
structure CuratedPageRow where
  url : String
  title : String
  description : String
  category : String
  content_hash : String
deriving DecidableEq

/-- Per-project database state for the recrawl tail: raw page rows, curated
rows, the current artifact `(content, content_hash)` and its version
history `(version, content)`. -/
structure DbState where
  pages : List PageRow
  curated_pages : List CuratedPageRow
  curated_sections : List (String × String)
  current_artifact : Option (String × String)
  artifact_versions : List (Int × String)
deriving DecidableEq

/-- Python `a or b` for strings (empty string is falsy). -/
def py_or_str (a b : String) : String := if a = "" then b else a

/-- `session.query(func.max(Page.version)) ... or 0` (tasks.py 1072-1074). -/
def page_max_version (st : DbState) : Int :=
  (st.pages.map fun p => p.version).foldl max 0

/-- One iteration of the page-versioning loop (tasks.py 1077-1100): build the
new `Page` row at the given version with the ETag and Last-Modified cleared
and the baseline hash recomputed from the markdown. -/
def mk_crawled_page_row (new_version : Int) (pd : PageData) : PageRow :=
  let markdown := pd.markdown
  let first_para : Option String :=
    if markdown ≠ "" then some (markdown.take 2000) else pd.first_paragraph
  let content_for_hash : String :=
    if markdown ≠ "" then markdown else (first_para.getD "")
  let baseline_hash : Option String :=
    if content_for_hash ≠ "" then some (sha256_hex content_for_hash) else none
  { url := pd.url
    title := pd.title
    description := pd.description
    first_paragraph := first_para
    content_hash := pd.content_hash
    baseline_html_hash := baseline_hash
    depth := pd.depth
    version := new_version
    etag := none
    last_modified_header := none }

/-- The unconditional page-saving step of `initial_crawl` (tasks.py
1071-1100): append one row per crawled page at `max_version + 1`.  Nothing
else in the state is written. -/
def save_crawled_pages (st : DbState) (pages_data : List PageData) : DbState :=
  { st with
      pages := st.pages ++ pages_data.map (mk_crawled_page_row (page_max_version st + 1)) }

/-- Step 7 of `initial_crawl` (tasks.py 803-832): filter and categorize the
truly-new URLs.  The relevance filter and the categorization are LLM calls,
so their outputs are parameters; the result is the pair
`(new_relevant_pages, new_sections_needed)` where each new page carries its
optional category. -/
def compute_new_pages_and_sections (new_urls filter_relevant_result : List PageData)
    (has_overview : Bool) (categorized_pages : List (String × String))
    (categorization_new_sections : List String) :
    List (String × Option String) × List String :=
  if new_urls.isEmpty then ([], [])
  else if filter_relevant_result.isEmpty then ([], [])
  else if has_overview then
    (categorized_pages.map fun p => (p.1, some p.2), categorization_new_sections)
  else
    (filter_relevant_result.map fun p => (p.url, none), [])

/-- Python `dict.fromkeys`-style order-preserving deduplication (first
occurrence wins). -/
def py_dedup_go (seen : List String) : List String → List String
  | [] => []
  | x :: xs => if x ∈ seen then py_dedup_go seen xs else x :: py_dedup_go (x :: seen) xs

def py_dedup (l : List String) : List String := py_dedup_go [] l

/-- The affected-section computation of the selective path (tasks.py
860-892): the categories of removed curated pages, of significantly changed
curated pages and of newly assigned pages; empty when no change of any kind
exists (line 899-906 leaves the initial empty list untouched). -/
def compute_sections_to_regenerate (curated : List CuratedPageRow)
    (removed_from_site : List String) (significant_changes : List CuratedPageRow)
    (new_relevant_pages : List (String × Option String)) : List String :=
  if removed_from_site.isEmpty ∧ significant_changes.isEmpty ∧
      new_relevant_pages.isEmpty then []
  else
    let from_removed := removed_from_site.filterMap fun u =>
      (curated.find? fun cp => normalize_url cp.url == u).map fun cp => cp.category
    let from_changed := significant_changes.map fun cp => cp.category
    let from_new := new_relevant_pages.map fun p => p.2.getD "Other"
    py_dedup (from_removed ++ from_changed ++ from_new)

/-- Which curation the tail of `initial_crawl` runs (tasks.py 913 and 926):
full curation, selective section regeneration, or nothing. -/
inductive CurationOutcome where
  | full
  | selective
  | noop
deriving DecidableEq

/-- The branch selection of tasks.py lines 913-926 and 1064-1069: full
curation for initial or fresh-manual crawls or when the threshold fired;
selective when any section needs regeneration or creation; otherwise the
no-op path (`curation_result = None`). -/
def decide_curation_outcome (trigger_reason : String)
    (has_existing_curated_data should_run_full_curation : Bool)
    (sections_to_regenerate new_sections_needed : List String) : CurationOutcome :=
  if trigger_reason = "initial" ∨
      (trigger_reason = "manual" ∧ ¬has_existing_curated_data) ∨
      should_run_full_curation then
    .full
  else if ¬sections_to_regenerate.isEmpty ∨ ¬new_sections_needed.isEmpty then
    .selective
  else
    .noop

/-- C7.  On a rescrape where no full-regeneration rule fires and the removed,
significantly-changed and new-relevant page sets are all empty, the curation
outcome is the no-op path, and the persistence step leaves the current
artifact, its version history and all curated rows unchanged while still
appending one new `Page` row per crawled page at `max_version + 1` with ETag
and Last-Modified cleared. -/
theorem noop_rescrape_frame (trigger_reason : String) (has_data has_overview : Bool)
    (curated : List CuratedPageRow) (removed : List String)
    (significant : List CuratedPageRow) (new_urls filter_rel : List PageData)
    (categorized : List (String × String)) (cat_new_sections : List String)
    (existing_section_count : Nat) (st : DbState) (pages_data : List PageData)
    (htrig : trigger_reason = "scheduled_check" ∨
      trigger_reason = "lightweight_change_detected")
    (hrem : removed = []) (hsig : significant = [])
    (hnew : new_urls = [] ∨ filter_rel = [])
    (hthresh : (check_full_regeneration_threshold curated.length removed.length
        significant.length
        (compute_new_pages_and_sections new_urls filter_rel has_overview categorized
          cat_new_sections).1.length
        existing_section_count
        (compute_new_pages_and_sections new_urls filter_rel has_overview categorized
          cat_new_sections).2.length).1 = false) :
    decide_curation_outcome trigger_reason has_data
        (check_full_regeneration_threshold curated.length removed.length
          significant.length
          (compute_new_pages_and_sections new_urls filter_rel has_overview categorized
            cat_new_sections).1.length
          existing_section_count
          (compute_new_pages_and_sections new_urls filter_rel has_overview categorized
            cat_new_sections).2.length).1
        (compute_sections_to_regenerate curated removed significant
          (compute_new_pages_and_sections new_urls filter_rel has_overview categorized
            cat_new_sections).1)
        (compute_new_pages_and_sections new_urls filter_rel has_overview categorized
          cat_new_sections).2 = .noop ∧
    (save_crawled_pages st pages_data).current_artifact = st.current_artifact ∧
    (save_crawled_pages st pages_data).artifact_versions = st.artifact_versions ∧
    (save_crawled_pages st pages_data).curated_pages = st.curated_pages ∧
    (save_crawled_pages st pages_data).curated_sections = st.curated_sections ∧
    (save_crawled_pages st pages_data).pages =
      st.pages ++ pages_data.map (mk_crawled_page_row (page_max_version st + 1)) ∧
    (∀ r ∈ pages_data.map (mk_crawled_page_row (page_max_version st + 1)),
      r.version = page_max_version st + 1 ∧ r.etag = none ∧
        r.last_modified_header = none) := by
  have hnp : compute_new_pages_and_sections new_urls filter_rel has_overview categorized
      cat_new_sections = ([], []) := by
    rcases hnew with h | h <;>
      simp [compute_new_pages_and_sections, h]
  refine ⟨?_, rfl, rfl, rfl, rfl, rfl, ?_⟩
  · rw [hnp] at hthresh ⊢
    subst hrem hsig
    have hstr : compute_sections_to_regenerate curated [] [] ([] : List (String × Option String)) = [] := by
      simp [compute_sections_to_regenerate]
    rw [hstr]
    simp only [List.length_nil] at hthresh
    rcases htrig with h | h <;>
      subst h <;>
      simp [decide_curation_outcome, hthresh]
  · intro r hr
    rw [List.mem_map] at hr
    obtain ⟨pd, _, hpd⟩ := hr
    subst hpd
    exact ⟨rfl, rfl, rfl⟩

/-- Witness for `noop_rescrape_frame`: a scheduled check on a project with
one curated page and one stored page row, a crawl returning the same page,
nothing removed, changed or new. -/
theorem noop_rescrape_frame_witness :
    decide_curation_outcome "scheduled_check" true
        (check_full_regeneration_threshold 1 0 0 0 1 0).1
        (compute_sections_to_regenerate
          [{ url := "https://e.com/a", title := "A", description := "d",
             category := "Platform Features", content_hash := "h1" }] [] [] [])
        [] = .noop ∧
    (save_crawled_pages
        { pages := [{ url := "https://e.com/a", title := "A", description := none,
                      first_paragraph := none, content_hash := some "h1",
                      baseline_html_hash := none, depth := 0, version := 1, etag := none,
                      last_modified_header := none }]
          curated_pages := [{ url := "https://e.com/a", title := "A", description := "d",
                              category := "Platform Features", content_hash := "h1" }]
          curated_sections := [("Platform Features", "prose")]
          current_artifact := some ("artifact", "ah")
          artifact_versions := [(1, "artifact")] }
        [{ url := "https://e.com/a", title := "A", description := none, markdown := "",
           first_paragraph := none, content_hash := some "h1", depth := 0 }]).current_artifact =
      some ("artifact", "ah") := by
  have h := noop_rescrape_frame "scheduled_check" true true
    [{ url := "https://e.com/a", title := "A", description := "d",
       category := "Platform Features", content_hash := "h1" }] [] [] [] []
    [] [] 1
    { pages := [{ url := "https://e.com/a", title := "A", description := none,
                  first_paragraph := none, content_hash := some "h1",
                  baseline_html_hash := none, depth := 0, version := 1, etag := none,
                  last_modified_header := none }]
      curated_pages := [{ url := "https://e.com/a", title := "A", description := "d",
                          category := "Platform Features", content_hash := "h1" }]
      curated_sections := [("Platform Features", "prose")]
      current_artifact := some ("artifact", "ah")
      artifact_versions := [(1, "artifact")] }
    [{ url := "https://e.com/a", title := "A", description := none, markdown := "",
       first_paragraph := none, content_hash := some "h1", depth := 0 }]
    (Or.inl rfl) rfl rfl (Or.inl rfl)
    (by norm_num [check_full_regeneration_threshold, compute_new_pages_and_sections])
  exact ⟨h.1, h.2.1⟩

/-! ## Semantic extractor (semantic_extractor.py lines 12-163)

The BeautifulSoup document is modelled as a forest of DOM nodes (`HtmlNode` /
`HtmlForest`, mutually inductive so every operation is structurally recursive
and kernel-computable).  Text handling follows the source: `_normalize_text`
collapses whitespace runs (`re.sub(r'\s+', ' ')` is `ws_canon`), strips and
lowercases; `get_text` concatenation and bs4 `find` / `find_all` document
order are implemented directly. -/

def is_py_space (c : Char) : Bool :=
  c = ' ' || c = '\t' || c = '\n' || c = '\r' || c = '\x0b' || c = '\x0c'

def space_push (acc : List Char) : List Char :=
  match acc with
  | ' ' :: _ => acc
  | _ => ' ' :: acc

def ws_step (c : Char) (acc : List Char) : List Char :=
  if is_py_space c then space_push acc else c :: acc

def ws_canon (l : List Char) : List Char := l.foldr ws_step []

def collapse_ws (s : String) : String := ⟨ws_canon s.data⟩

def drop_trailing_ws : List Char → List Char
  | [] => []
  | c :: cs =>
      match drop_trailing_ws cs with
      | [] => if is_py_space c then [] else [c]
      | r => c :: r

def trim_chars (l : List Char) : List Char := drop_trailing_ws (l.dropWhile is_py_space)

def str_strip (s : String) : String := ⟨trim_chars s.data⟩

def normalize_text (s : String) : String := ⟨(trim_chars (ws_canon s.data)).map Char.toLower⟩

mutual
inductive HtmlNode where
  | text (s : String)
  | elem (tag : String) (attrs : List (String × String)) (children : HtmlForest)
inductive HtmlForest where
  | nil
  | cons (head : HtmlNode) (tail : HtmlForest)
end

def NOISY_TAGS : List String :=
  ["script", "style", "noscript", "iframe", "svg", "canvas",
   "video", "audio", "source", "track", "embed", "object"]

def get_attr (attrs : List (String × String)) (name : String) : Option String :=
  (attrs.find? fun a => a.1 == name).map fun a => a.2

def contains_sub (hay needle : String) : Bool :=
  hay.data.tails.any fun t => needle.data.isPrefixOf t

def matches_noisy_selector (attrs : List (String × String)) : Bool :=
  let cls := (get_attr attrs "class").getD ""
  let idv := (get_attr attrs "id").getD ""
  contains_sub cls "ad-" || contains_sub cls "ads-" || contains_sub idv "ad-" ||
  contains_sub cls "intercom" || contains_sub cls "hubspot" || contains_sub cls "drift" ||
  contains_sub cls "cookie" || contains_sub cls "gdpr" || contains_sub cls "consent" ||
  contains_sub cls "popup" || contains_sub cls "modal" || contains_sub cls "overlay" ||
  (get_attr attrs "data-analytics").isSome || (get_attr attrs "data-tracking").isSome

mutual
def remove_noisy_tags_node : HtmlNode → Option HtmlNode
  | .text s => some (.text s)
  | .elem t a c =>
      if t ∈ NOISY_TAGS then none
      else some (.elem t a (remove_noisy_tags_forest c))
def remove_noisy_tags_forest : HtmlForest → HtmlForest
  | .nil => .nil
  | .cons n rest =>
      match remove_noisy_tags_node n with
      | none => remove_noisy_tags_forest rest
      | some n' => .cons n' (remove_noisy_tags_forest rest)
end

mutual
def remove_noisy_selectors_node : HtmlNode → Option HtmlNode
  | .text s => some (.text s)
  | .elem t a c =>
      if matches_noisy_selector a then none
      else some (.elem t a (remove_noisy_selectors_forest c))
def remove_noisy_selectors_forest : HtmlForest → HtmlForest
  | .nil => .nil
  | .cons n rest =>
      match remove_noisy_selectors_node n with
      | none => remove_noisy_selectors_forest rest
      | some n' => .cons n' (remove_noisy_selectors_forest rest)
end

def clean_html (doc : HtmlForest) : HtmlForest :=
  remove_noisy_selectors_forest (remove_noisy_tags_forest doc)

mutual
def node_strings : HtmlNode → List String
  | .text s => [s]
  | .elem _ _ c => forest_strings c
def forest_strings : HtmlForest → List String
  | .nil => []
  | .cons n rest => node_strings n ++ forest_strings rest
end

def str_concat : List String → String
  | [] => ""
  | s :: rest => s ++ str_concat rest

def str_intercalate (sep : String) : List String → String
  | [] => ""
  | [x] => x
  | x :: xs => x ++ sep ++ str_intercalate sep xs

def get_text_raw (n : HtmlNode) : String := str_concat (node_strings n)

def piece_strip (s : String) : Option String :=
  let t := str_strip s
  if t = "" then none else some t

def get_text_sep_strip (n : HtmlNode) : String :=
  str_intercalate " " ((node_strings n).filterMap piece_strip)

mutual
def find_in_node (p : String → List (String × String) → Bool) : HtmlNode → Option HtmlNode
  | .text _ => none
  | .elem t a c => if p t a then some (.elem t a c) else find_node p c
def find_node (p : String → List (String × String) → Bool) : HtmlForest → Option HtmlNode
  | .nil => none
  | .cons n rest =>
      match find_in_node p n with
      | some m => some m
      | none => find_node p rest
end

mutual
def find_all_node (p : String → List (String × String) → Bool) : HtmlNode → List HtmlNode
  | .text _ => []
  | .elem t a c => (if p t a then [.elem t a c] else []) ++ find_all_forest p c
def find_all_forest (p : String → List (String × String) → Bool) : HtmlForest → List HtmlNode
  | .nil => []
  | .cons n rest => find_all_node p n ++ find_all_forest p rest
end

def strip_query_chars : List Char → List Char
  | [] => []
  | c :: rest =>
      if c = '?' then
        let upto := rest.takeWhile fun x => x != '\n'
        let after := rest.drop upto.length
        if after = [] then []
        else if after = ['\n'] then ['\n']
        else c :: strip_query_chars rest
      else c :: strip_query_chars rest

def strip_query (href : String) : String := ⟨strip_query_chars href.data⟩

def rstrip_slashes (s : String) : String := ⟨(s.data.reverse.dropWhile (· == '/')).reverse⟩

def process_nav_link : HtmlNode → Option String
  | .text _ => none
  | .elem _ a _ =>
      match get_attr a "href" with
      | none => none
      | some href =>
          if href.startsWith "#" || href.startsWith "javascript:" then none
          else
            let h := rstrip_slashes (strip_query href)
            if h = "" then none else some h

def extract_nav_links (doc : HtmlForest) : List String :=
  let containers := find_all_forest (fun t _ => t == "nav" || t == "header") doc
  let links := containers.flatMap fun cont =>
    match cont with
    | .text _ => []
    | .elem _ _ c =>
        (find_all_forest (fun t a => t == "a" && (get_attr a "href").isSome) c).filterMap
          process_nav_link
  py_dedup links

def split_ws_go (cur : List Char) : List Char → List String
  | [] => if cur = [] then [] else [⟨cur.reverse⟩]
  | c :: rest =>
      if is_py_space c then
        if cur = [] then split_ws_go [] rest
        else ⟨cur.reverse⟩ :: split_ws_go [] rest
      else split_ws_go (c :: cur) rest

def split_ws (s : String) : List String := split_ws_go [] s.data

def find_by_tag (tag : String) (doc : HtmlForest) : Option HtmlNode :=
  find_node (fun t _ => t == tag) doc

def find_by_id (idv : String) (doc : HtmlForest) : Option HtmlNode :=
  find_node (fun _ a => get_attr a "id" == some idv) doc

def find_by_class (cls : String) (doc : HtmlForest) : Option HtmlNode :=
  find_node (fun _ a =>
    match get_attr a "class" with
    | some v => (split_ws v).contains cls
    | none => false) doc

def extract_main_content (doc : HtmlForest) (max_length : Nat) : String :=
  let main :=
    find_by_tag "main" doc <|> find_by_tag "article" doc <|>
    find_by_tag "[role=\"main\"]" doc <|>
    find_by_id "content" doc <|> find_by_id "main" doc <|>
    find_by_class "content" doc <|> find_by_tag "body" doc
  match main with
  | none => ""
  | some m =>
      let text := normalize_text (get_text_sep_strip m)
      if max_length < text.length then text.take max_length else text

def opt_part : Option String → List String
  | some s => [s]
  | none => []

def title_part (soup : HtmlForest) : Option String :=
  match find_by_tag "title" soup with
  | some tt => some ("TITLE:" ++ normalize_text (get_text_raw tt))
  | none => none

def meta_content_part (label : String) (p : String → List (String × String) → Bool)
    (soup : HtmlForest) : Option String :=
  match find_node p soup with
  | some (.elem _ a _) =>
      match get_attr a "content" with
      | some cv => if cv = "" then none else some (label ++ normalize_text cv)
      | none => none
  | _ => none

def desc_part (soup : HtmlForest) : Option String :=
  meta_content_part "DESC:"
    (fun t a => t == "meta" && (get_attr a "name" == some "description")) soup

def og_title_part (soup : HtmlForest) : Option String :=
  meta_content_part "OG_TITLE:"
    (fun t a => t == "meta" && (get_attr a "property" == some "og:title")) soup

def og_desc_part (soup : HtmlForest) : Option String :=
  meta_content_part "OG_DESC:"
    (fun t a => t == "meta" && (get_attr a "property" == some "og:description")) soup

def content_part (soup : HtmlForest) (max_content_length : Nat) : Option String :=
  let c := extract_main_content soup max_content_length
  if c = "" then none else some ("CONTENT:" ++ c)

def nav_part (soup : HtmlForest) : Option String :=
  let links := extract_nav_links soup
  if links.isEmpty then none
  else some ("NAV:" ++ str_intercalate "," (links.take 20))

def build_parts (soup : HtmlForest) (max_content_length : Nat) : String :=
  str_intercalate "\n"
    (opt_part (title_part soup) ++ opt_part (desc_part soup) ++
     opt_part (og_title_part soup) ++ opt_part (og_desc_part soup) ++
     opt_part (content_part soup max_content_length) ++ opt_part (nav_part soup))

def extract_content (doc : HtmlForest) (max_content_length : Nat) : String :=
  build_parts (clean_html doc) max_content_length

/-- `SemanticExtractor.extract_fingerprint` (semantic_extractor.py 30-41):
SHA-256 of the extracted semantic content. -/
def extract_fingerprint (doc : HtmlForest) (max_content_length : Nat) : String :=
  sha256_hex (extract_content doc max_content_length)

lemma ws_step_space (c : Char) (hc : is_py_space c = true) (y : List Char) :
    ws_step c y = space_push y := by
  simp [ws_step, hc]

lemma ws_step_nonspace (c : Char) (hc : is_py_space c = false) (y : List Char) :
    ws_step c y = c :: y := by
  simp [ws_step, hc]

lemma space_push_head (y : List Char) : ∃ z, space_push y = ' ' :: z := by
  match y with
  | [] => exact ⟨[], rfl⟩
  | ' ' :: z => exact ⟨z, rfl⟩
  | d :: z =>
      by_cases hd : d = ' '
      · subst hd; exact ⟨z, rfl⟩
      · exact ⟨d :: z, by simp [space_push, hd]⟩

lemma space_push_of_head (z : List Char) : space_push (' ' :: z) = ' ' :: z := rfl

lemma space_push_idem (y : List Char) : space_push (space_push y) = space_push y := by
  obtain ⟨z, hz⟩ := space_push_head y
  rw [hz, space_push_of_head]

lemma foldr_ws_step_space_push (y X : List Char) :
    List.foldr ws_step X (space_push y) = space_push (List.foldr ws_step X y) := by
  match y with
  | [] =>
      show List.foldr ws_step X [' '] = _
      rw [List.foldr_cons, List.foldr_nil, ws_step_space ' ' (by simp [is_py_space])]
  | d :: z =>
      by_cases hd : d = ' '
      · subst hd
        rw [space_push_of_head, List.foldr_cons,
          ws_step_space ' ' (by simp [is_py_space]), space_push_idem]
      · rw [show space_push (d :: z) = ' ' :: d :: z by simp [space_push, hd],
          List.foldr_cons, ws_step_space ' ' (by simp [is_py_space])]

lemma foldr_ws_step_canon (s : List Char) (X : List Char) :
    (ws_canon s).foldr ws_step X = s.foldr ws_step X := by
  induction s with
  | nil => rfl
  | cons c s' ih =>
      rw [show ws_canon (c :: s') = ws_step c (ws_canon s') from rfl, List.foldr_cons]
      by_cases hc : is_py_space c
      · rw [ws_step_space c hc, ws_step_space c hc, foldr_ws_step_space_push, ih]
      · have hc' : is_py_space c = false := by simpa using hc
        rw [ws_step_nonspace c hc' (ws_canon s'), List.foldr_cons,
          ws_step_nonspace c hc' (List.foldr ws_step X (ws_canon s')), ih,
          ws_step_nonspace c hc' (List.foldr ws_step X s')]

lemma ws_canon_append (s t : List Char) :
    ws_canon (s ++ t) = s.foldr ws_step (ws_canon t) := by
  rw [ws_canon, List.foldr_append]
  rfl

lemma ws_canon_idem (s : List Char) : ws_canon (ws_canon s) = ws_canon s :=
  foldr_ws_step_canon s []

lemma ws_canon_canon_append (s t : List Char) :
    ws_canon (ws_canon s ++ t) = ws_canon (s ++ t) := by
  rw [ws_canon_append, ws_canon_append, foldr_ws_step_canon]

lemma ws_canon_append_congr (s t1 t2 : List Char) (h : ws_canon t1 = ws_canon t2) :
    ws_canon (s ++ t1) = ws_canon (s ++ t2) := by
  rw [ws_canon_append, ws_canon_append, h]

lemma dropWhile_space_push (y : List Char) :
    (space_push y).dropWhile is_py_space = y.dropWhile is_py_space := by
  match y with
  | [] =>
      show [' '].dropWhile is_py_space = _
      rw [List.dropWhile_cons, if_pos (by simp [is_py_space])]
  | ' ' :: z =>
      rw [space_push_of_head]
  | d :: z =>
      by_cases hd : d = ' '
      · subst hd; rw [space_push_of_head]
      · rw [show space_push (d :: z) = ' ' :: d :: z by simp [space_push, hd]]
        rw [show (' ' :: d :: z).dropWhile is_py_space = (d :: z).dropWhile is_py_space by
          rw [List.dropWhile_cons, if_pos (by simp [is_py_space])]]

lemma dropWhile_ws_canon (l : List Char) :
    (ws_canon l).dropWhile is_py_space = ws_canon (l.dropWhile is_py_space) := by
  induction l with
  | nil => rfl
  | cons c r ih =>
      rw [show ws_canon (c :: r) = ws_step c (ws_canon r) from rfl]
      by_cases hc : is_py_space c
      · rw [ws_step_space c hc, dropWhile_space_push, ih,
          List.dropWhile_cons, if_pos hc]
      · have hc' : is_py_space c = false := by simpa using hc
        rw [ws_step_nonspace c hc', List.dropWhile_cons, if_neg (by simp [hc']),
          List.dropWhile_cons, if_neg (by simp [hc'])]
        rw [show ws_canon (c :: r) = ws_step c (ws_canon r) from rfl,
          ws_step_nonspace c hc']

lemma ws_canon_ne_nil (l : List Char) (h : l ≠ []) : ws_canon l ≠ [] := by
  match l with
  | c :: r =>
      rw [show ws_canon (c :: r) = ws_step c (ws_canon r) from rfl]
      by_cases hc : is_py_space c
      · rw [ws_step_space c hc]
        obtain ⟨z, hz⟩ := space_push_head (ws_canon r)
        rw [hz]
        exact List.cons_ne_nil _ _
      · rw [ws_step_nonspace c (by simpa using hc)]
        exact List.cons_ne_nil _ _

lemma ws_canon_nil_iff (l : List Char) : ws_canon l = [] ↔ l = [] := by
  constructor
  · intro h
    by_contra hne
    exact ws_canon_ne_nil l hne h
  · intro h; subst h; rfl

lemma dtw_cons (d : Char) (z : List Char) :
    drop_trailing_ws (d :: z) =
      match drop_trailing_ws z with
      | [] => if is_py_space d then [] else [d]
      | r => d :: r := rfl

lemma dtw_space_push (y : List Char) :
    drop_trailing_ws (space_push y) =
      match drop_trailing_ws y with
      | [] => []
      | r => space_push r := by
  match y with
  | [] =>
      rw [show space_push ([] : List Char) = [' '] from rfl]
      rw [show drop_trailing_ws ([' '] : List Char) = [] by
        rw [dtw_cons]
        rw [show drop_trailing_ws ([] : List Char) = [] from rfl]
        simp [is_py_space]]
      rfl
  | ' ' :: z =>
      rw [space_push_of_head, dtw_cons]
      cases hz : drop_trailing_ws z with
      | nil => simp [is_py_space]
      | cons w ws => rfl
  | d :: z =>
      by_cases hd : d = ' '
      · subst hd
        rw [space_push_of_head, dtw_cons]
        cases hz : drop_trailing_ws z with
        | nil => simp [is_py_space]
        | cons w ws => rfl
      · rw [show space_push (d :: z) = ' ' :: d :: z by simp [space_push, hd]]
        rw [dtw_cons ' ' (d :: z)]
        cases hdz : drop_trailing_ws (d :: z) with
        | nil => simp [is_py_space]
        | cons e r =>
            have he : e = d := by
              rw [dtw_cons] at hdz
              cases hz2 : drop_trailing_ws z with
              | nil =>
                  rw [hz2] at hdz
                  by_cases hwd : is_py_space d
                  · rw [if_pos hwd] at hdz
                    exact absurd hdz.symm (List.cons_ne_nil _ _)
                  · rw [if_neg hwd] at hdz
                    injection hdz with h1 _
                    exact h1.symm
              | cons w ws =>
                  rw [hz2] at hdz
                  injection hdz with h1 _
                  exact h1.symm
            subst he
            simp [space_push, hd]

lemma dtw_ws_canon (l : List Char) :
    drop_trailing_ws (ws_canon l) = ws_canon (drop_trailing_ws l) := by
  induction l with
  | nil => rfl
  | cons c r ih =>
      rw [show ws_canon (c :: r) = ws_step c (ws_canon r) from rfl, dtw_cons]
      by_cases hc : is_py_space c
      · rw [ws_step_space c hc, dtw_space_push, ih]
        cases hr : drop_trailing_ws r with
        | nil =>
            show (match ws_canon ([] : List Char) with
              | [] => []
              | r => space_push r) = ws_canon (if is_py_space c = true then [] else [c])
            rw [if_pos hc]
            rfl
        | cons w ws =>
            show (match ws_canon (w :: ws) with
              | [] => []
              | r => space_push r) = ws_canon (c :: w :: ws)
            have hne : ws_canon (w :: ws) ≠ [] := ws_canon_ne_nil _ (List.cons_ne_nil _ _)
            cases hcw : ws_canon (w :: ws) with
            | nil => exact absurd hcw hne
            | cons e z =>
                rw [show ws_canon (c :: w :: ws) = ws_step c (ws_canon (w :: ws)) from rfl,
                  ws_step_space c hc, hcw]
      · have hc' : is_py_space c = false := by simpa using hc
        rw [ws_step_nonspace c hc', dtw_cons, ih]
        cases hr : drop_trailing_ws r with
        | nil =>
            show (if is_py_space c = true then [] else [c]) =
              ws_canon (if is_py_space c = true then [] else [c])
            rw [if_neg (by simp [hc'])]
            show [c] = ws_canon [c]
            rw [show ws_canon [c] = ws_step c (ws_canon []) from rfl,
              ws_step_nonspace c hc']
            rfl
        | cons w ws =>
            show (match ws_canon (w :: ws) with
              | [] => if is_py_space c = true then [] else [c]
              | rr => c :: rr) = ws_canon (c :: w :: ws)
            have hne : ws_canon (w :: ws) ≠ [] := ws_canon_ne_nil _ (List.cons_ne_nil _ _)
            cases hcw : ws_canon (w :: ws) with
            | nil => exact absurd hcw hne
            | cons e z =>
                rw [show ws_canon (c :: w :: ws) = ws_step c (ws_canon (w :: ws)) from rfl,
                  ws_step_nonspace c hc', hcw]

lemma trim_ws_canon (l : List Char) :
    trim_chars (ws_canon l) = ws_canon (trim_chars l) := by
  rw [trim_chars, trim_chars, dropWhile_ws_canon, dtw_ws_canon]

lemma trim_canon_nil_iff (l : List Char) :
    trim_chars (ws_canon l) = [] ↔ trim_chars l = [] := by
  rw [trim_ws_canon, ws_canon_nil_iff]

mutual
def canon_node : HtmlNode → HtmlNode
  | .text s => .text (collapse_ws s)
  | .elem t a c => .elem t a (canon_forest c)
def canon_forest : HtmlForest → HtmlForest
  | .nil => .nil
  | .cons n rest => .cons (canon_node n) (canon_forest rest)
end

def clean_canon (doc : HtmlForest) : HtmlForest := canon_forest (clean_html doc)

lemma collapse_ws_data (s : String) : (collapse_ws s).data = ws_canon s.data := rfl

lemma string_eq_of_data {s t : String} (h : s.data = t.data) : s = t := by
  cases s
  cases t
  exact congrArg String.mk h

lemma collapse_ws_idem (s : String) : collapse_ws (collapse_ws s) = collapse_ws s :=
  string_eq_of_data (by rw [collapse_ws_data, collapse_ws_data, ws_canon_idem])

lemma normalize_text_congr (s t : String) (h : ws_canon s.data = ws_canon t.data) :
    normalize_text s = normalize_text t :=
  string_eq_of_data (by
    show (trim_chars (ws_canon s.data)).map Char.toLower =
      (trim_chars (ws_canon t.data)).map Char.toLower
    rw [h])

lemma ws_canon_str_concat (xs ys : List String)
    (h : xs.map collapse_ws = ys.map collapse_ws) :
    ws_canon (str_concat xs).data = ws_canon (str_concat ys).data := by
  induction xs generalizing ys with
  | nil =>
      have : ys = [] := by
        cases ys with
        | nil => rfl
        | cons y ys' => simp at h
      subst this
      rfl
  | cons x xs' ih =>
      cases ys with
      | nil => simp at h
      | cons y ys' =>
          simp only [List.map_cons, List.cons.injEq] at h
          obtain ⟨hxy, htail⟩ := h
          have hxy' : ws_canon x.data = ws_canon y.data := by
            have := congrArg String.data hxy
            rwa [collapse_ws_data, collapse_ws_data] at this
          show ws_canon (x ++ str_concat xs').data = ws_canon (y ++ str_concat ys').data
          rw [String.data_append, String.data_append]
          rw [ws_canon_append, ws_canon_append]
          rw [← foldr_ws_step_canon x.data, ← foldr_ws_step_canon y.data]
          rw [hxy', ih ys' htail]

lemma ws_canon_str_intercalate_space (xs ys : List String)
    (h : xs.map collapse_ws = ys.map collapse_ws) :
    ws_canon (str_intercalate " " xs).data = ws_canon (str_intercalate " " ys).data := by
  induction xs generalizing ys with
  | nil =>
      have : ys = [] := by
        cases ys with
        | nil => rfl
        | cons y ys' => simp at h
      subst this
      rfl
  | cons x xs' ih =>
      cases ys with
      | nil => simp at h
      | cons y ys' =>
          simp only [List.map_cons, List.cons.injEq] at h
          obtain ⟨hxy, htail⟩ := h
          have hxy' : ws_canon x.data = ws_canon y.data := by
            have := congrArg String.data hxy
            rwa [collapse_ws_data, collapse_ws_data] at this
          cases xs' with
          | nil =>
              have : ys' = [] := by
                cases ys' with
                | nil => rfl
                | cons z zs => simp at htail
              subst this
              show ws_canon x.data = ws_canon y.data
              exact hxy'
          | cons x2 xs2 =>
              cases ys' with
              | nil => simp at htail
              | cons y2 ys2 =>
                  have key : ∀ (s : String) (D : List Char),
                      ws_canon (s.data ++ (" ".data ++ D)) =
                        List.foldr ws_step
                          (List.foldr ws_step (ws_canon D) " ".data)
                          (ws_canon s.data) := by
                    intro s D
                    rw [ws_canon_append s.data (" ".data ++ D),
                      ws_canon_append " ".data D, foldr_ws_step_canon s.data]
                  show ws_canon (x ++ " " ++ str_intercalate " " (x2 :: xs2)).data =
                    ws_canon (y ++ " " ++ str_intercalate " " (y2 :: ys2)).data
                  rw [String.data_append, String.data_append,
                    String.data_append, String.data_append]
                  rw [List.append_assoc, List.append_assoc]
                  rw [key x (str_intercalate " " (x2 :: xs2)).data,
                    key y (str_intercalate " " (y2 :: ys2)).data,
                    hxy', ih (y2 :: ys2) htail]

lemma str_strip_data (s : String) : (str_strip s).data = trim_chars s.data := rfl

lemma str_strip_empty_iff (s : String) : str_strip s = "" ↔ trim_chars s.data = [] := by
  constructor
  · intro h
    have := congrArg String.data h
    rwa [str_strip_data] at this
  · intro h
    exact string_eq_of_data (by rw [str_strip_data, h])

lemma strip_collapse_empty_iff (s : String) :
    (str_strip (collapse_ws s) = "") ↔ (str_strip s = "") := by
  rw [str_strip_empty_iff, str_strip_empty_iff, collapse_ws_data, trim_canon_nil_iff]

lemma collapse_strip_collapse (s : String) :
    collapse_ws (str_strip (collapse_ws s)) = collapse_ws (str_strip s) :=
  string_eq_of_data (by
    rw [collapse_ws_data, collapse_ws_data, str_strip_data, str_strip_data,
      collapse_ws_data, trim_ws_canon, ws_canon_idem])

lemma piece_strip_collapse_map (ss : List String) :
    (List.map collapse_ws ((List.map collapse_ws ss).filterMap piece_strip)) =
      List.map collapse_ws (ss.filterMap piece_strip) := by
  induction ss with
  | nil => rfl
  | cons s rest ih =>
      simp only [List.map_cons, List.filterMap_cons]
      by_cases hs : str_strip s = ""
      · have hcs : str_strip (collapse_ws s) = "" := (strip_collapse_empty_iff s).mpr hs
        simp only [piece_strip, hcs, hs, if_pos]
        exact ih
      · have hcs : ¬(str_strip (collapse_ws s) = "") := fun h =>
          hs ((strip_collapse_empty_iff s).mp h)
        simp only [piece_strip, if_neg hs, if_neg hcs, List.map_cons]
        rw [collapse_strip_collapse, ih]

mutual
lemma node_strings_canon : ∀ n : HtmlNode,
    node_strings (canon_node n) = (node_strings n).map collapse_ws
  | .text _ => rfl
  | .elem _ _ c => forest_strings_canon c
lemma forest_strings_canon : ∀ f : HtmlForest,
    forest_strings (canon_forest f) = (forest_strings f).map collapse_ws
  | .nil => rfl
  | .cons n rest => by
      show node_strings (canon_node n) ++ forest_strings (canon_forest rest) =
        (node_strings n ++ forest_strings rest).map collapse_ws
      rw [node_strings_canon n, forest_strings_canon rest, List.map_append]
end

mutual
lemma find_in_node_canon (p : String → List (String × String) → Bool) :
    ∀ n : HtmlNode, find_in_node p (canon_node n) = (find_in_node p n).map canon_node
  | .text _ => rfl
  | .elem t a c => by
      show (if p t a then some (.elem t a (canon_forest c))
        else find_node p (canon_forest c)) = _
      by_cases hp : p t a
      · rw [if_pos hp]
        show _ = (if p t a then some (HtmlNode.elem t a c) else find_node p c).map canon_node
        rw [if_pos hp]
        rfl
      · rw [if_neg hp]
        show _ = (if p t a then some (HtmlNode.elem t a c) else find_node p c).map canon_node
        rw [if_neg hp]
        exact find_node_canon p c
lemma find_node_canon (p : String → List (String × String) → Bool) :
    ∀ f : HtmlForest, find_node p (canon_forest f) = (find_node p f).map canon_node
  | .nil => rfl
  | .cons n rest => by
      show (match find_in_node p (canon_node n) with
        | some m => some m
        | none => find_node p (canon_forest rest)) = _
      rw [find_in_node_canon p n]
      cases hm : find_in_node p n with
      | some m =>
          show some (canon_node m) = _
          rw [show find_node p (.cons n rest) =
            (match find_in_node p n with
             | some m => some m
             | none => find_node p rest) from rfl, hm]
          rfl
      | none =>
          rw [find_node_canon p rest]
          rw [show find_node p (HtmlForest.cons n rest) =
            (match find_in_node p n with
             | some m => some m
             | none => find_node p rest) from rfl, hm]
          rfl
end

mutual
lemma find_all_node_canon (p : String → List (String × String) → Bool) :
    ∀ n : HtmlNode, find_all_node p (canon_node n) = (find_all_node p n).map canon_node
  | .text _ => rfl
  | .elem t a c => by
      show ((if p t a then [HtmlNode.elem t a (canon_forest c)] else []) ++
        find_all_forest p (canon_forest c)) = _
      rw [find_all_forest_canon p c]
      by_cases hp : p t a
      · rw [if_pos hp]
        show _ = ((if p t a then [HtmlNode.elem t a c] else []) ++
          find_all_forest p c).map canon_node
        rw [if_pos hp, List.map_append]
        rfl
      · rw [if_neg hp]
        show _ = ((if p t a then [HtmlNode.elem t a c] else []) ++
          find_all_forest p c).map canon_node
        rw [if_neg hp, List.map_append]
        rfl
lemma find_all_forest_canon (p : String → List (String × String) → Bool) :
    ∀ f : HtmlForest, find_all_forest p (canon_forest f) = (find_all_forest p f).map canon_node
  | .nil => rfl
  | .cons n rest => by
      show find_all_node p (canon_node n) ++ find_all_forest p (canon_forest rest) = _
      rw [find_all_node_canon p n, find_all_forest_canon p rest, ← List.map_append]
      rfl
end

lemma map_collapse_idem (ss : List String) :
    (ss.map collapse_ws).map collapse_ws = ss.map collapse_ws := by
  induction ss with
  | nil => rfl
  | cons s rest ih =>
      simp only [List.map_cons, ih, collapse_ws_idem]

lemma normalize_get_text_raw_canon (n : HtmlNode) :
    normalize_text (get_text_raw (canon_node n)) = normalize_text (get_text_raw n) := by
  apply normalize_text_congr
  show ws_canon (str_concat (node_strings (canon_node n))).data = _
  rw [node_strings_canon n]
  exact ws_canon_str_concat _ _ (map_collapse_idem _)

lemma normalize_get_text_sep_canon (n : HtmlNode) :
    normalize_text (get_text_sep_strip (canon_node n)) =
      normalize_text (get_text_sep_strip n) := by
  apply normalize_text_congr
  show ws_canon (str_intercalate " " ((node_strings (canon_node n)).filterMap
    piece_strip)).data = _
  rw [node_strings_canon n]
  exact ws_canon_str_intercalate_space _ _ (piece_strip_collapse_map _)

lemma opt_orElse_map (g : HtmlNode → HtmlNode) (a b : Option HtmlNode) :
    (a.map g <|> b.map g) = (a <|> b).map g := by
  cases a <;> rfl

lemma title_part_canon (f : HtmlForest) : title_part (canon_forest f) = title_part f := by
  unfold title_part find_by_tag
  rw [find_node_canon]
  cases find_node (fun t _ => t == "title") f with
  | none => rfl
  | some tt =>
      show some ("TITLE:" ++ normalize_text (get_text_raw (canon_node tt))) = _
      rw [normalize_get_text_raw_canon tt]

lemma attrs_canon_node (t : String) (a : List (String × String)) (c : HtmlForest) :
    canon_node (.elem t a c) = .elem t a (canon_forest c) := rfl

lemma meta_content_part_canon (label : String)
    (p : String → List (String × String) → Bool) (f : HtmlForest) :
    meta_content_part label p (canon_forest f) = meta_content_part label p f := by
  unfold meta_content_part
  rw [find_node_canon]
  cases find_node p f with
  | none => rfl
  | some n =>
      cases n with
      | text s => rfl
      | elem t a c => rfl

lemma extract_main_content_canon (f : HtmlForest) (max_length : Nat) :
    extract_main_content (canon_forest f) max_length =
      extract_main_content f max_length := by
  unfold extract_main_content find_by_tag find_by_id find_by_class
  rw [find_node_canon, find_node_canon, find_node_canon, find_node_canon,
    find_node_canon, find_node_canon, find_node_canon]
  rw [opt_orElse_map, opt_orElse_map, opt_orElse_map, opt_orElse_map,
    opt_orElse_map, opt_orElse_map]
  cases (find_node (fun t _ => t == "main") f <|>
      find_node (fun t _ => t == "article") f <|>
      find_node (fun t _ => t == "[role=\"main\"]") f <|>
      find_node (fun _ a => get_attr a "id" == some "content") f <|>
      find_node (fun _ a => get_attr a "id" == some "main") f <|>
      find_node (fun _ a =>
        match get_attr a "class" with
        | some v => (split_ws v).contains "content"
        | none => false) f <|>
      find_node (fun t _ => t == "body") f) with
  | none => rfl
  | some m =>
      show (let text := normalize_text (get_text_sep_strip (canon_node m))
        if max_length < text.length then text.take max_length else text) = _
      rw [normalize_get_text_sep_canon m]

lemma process_nav_link_canon (n : HtmlNode) :
    process_nav_link (canon_node n) = process_nav_link n := by
  cases n <;> rfl

lemma extract_nav_links_canon (f : HtmlForest) :
    extract_nav_links (canon_forest f) = extract_nav_links f := by
  unfold extract_nav_links
  rw [find_all_forest_canon]
  have hpoint : ∀ cont : HtmlNode,
      (match canon_node cont with
       | HtmlNode.text _ => ([] : List String)
       | HtmlNode.elem _ _ c =>
          List.filterMap process_nav_link
            (find_all_forest (fun t a => t == "a" && (get_attr a "href").isSome) c)) =
      (match cont with
       | HtmlNode.text _ => ([] : List String)
       | HtmlNode.elem _ _ c =>
          List.filterMap process_nav_link
            (find_all_forest (fun t a => t == "a" && (get_attr a "href").isSome) c)) := by
    intro cont
    cases cont with
    | text s => rfl
    | elem t a c =>
        show List.filterMap process_nav_link
          (find_all_forest (fun t a => t == "a" && (get_attr a "href").isSome)
            (canon_forest c)) = _
        rw [find_all_forest_canon, List.filterMap_map]
        congr 1
        funext x
        exact process_nav_link_canon x
  show py_dedup _ = py_dedup _
  congr 1
  induction find_all_forest (fun t _ => t == "nav" || t == "header") f with
  | nil => rfl
  | cons n rest ih =>
      simp only [List.map_cons, List.flatMap_cons]
      rw [ih]
      congr 1
      exact hpoint n

lemma content_part_canon (f : HtmlForest) (maxlen : Nat) :
    content_part (canon_forest f) maxlen = content_part f maxlen := by
  unfold content_part
  rw [extract_main_content_canon]

lemma nav_part_canon (f : HtmlForest) : nav_part (canon_forest f) = nav_part f := by
  unfold nav_part
  rw [extract_nav_links_canon]

lemma build_parts_canon (f : HtmlForest) (maxlen : Nat) :
    build_parts (canon_forest f) maxlen = build_parts f maxlen := by
  unfold build_parts desc_part og_title_part og_desc_part
  rw [title_part_canon, meta_content_part_canon, meta_content_part_canon,
    meta_content_part_canon, content_part_canon, nav_part_canon]

def strip_ws_str (s : String) : String := ⟨s.data.filter fun c => !is_py_space c⟩

mutual
def strip_ws_node : HtmlNode → HtmlNode
  | .text s => .text (strip_ws_str s)
  | .elem t a c =>
      .elem t (a.map fun kv => (kv.1, strip_ws_str kv.2)) (strip_ws_forest c)
def strip_ws_forest : HtmlForest → HtmlForest
  | .nil => .nil
  | .cons n rest => .cons (strip_ws_node n) (strip_ws_forest rest)
end



/-- C10 amended.  `extract_fingerprint` is a function of the document, and any
two documents that become identical after deleting the noisy tags
(script/style/noscript/iframe/svg/canvas/media), deleting the elements
matching the ad/cookie/consent/overlay/analytics selectors, and collapsing
whitespace runs inside text nodes, receive the same SHA-256 fingerprint.
Whitespace inside attribute values is not covered: it is significant (see the
counterexample). -/
theorem semantic_extractor_insensitive (d1 d2 : HtmlForest) (maxlen : Nat)
    (h : clean_canon d1 = clean_canon d2) :
    extract_fingerprint d1 maxlen = extract_fingerprint d2 maxlen := by
  unfold extract_fingerprint extract_content
  rw [← build_parts_canon (clean_html d1), ← build_parts_canon (clean_html d2)]
  rw [show canon_forest (clean_html d1) = clean_canon d1 from rfl,
    show canon_forest (clean_html d2) = clean_canon d2 from rfl, h]

/-- Witness for `semantic_extractor_insensitive`: two pages differing only in
the body of a `<script>` tag and in whitespace runs of the title and body
text hash identically. -/
theorem semantic_extractor_insensitive_witness :
    extract_fingerprint
      (.cons (.elem "html" []
        (.cons (.elem "head" []
          (.cons (.elem "title" [] (.cons (.text "My  Site") .nil))
            (.cons (.elem "script" [] (.cons (.text "var a=1;") .nil)) .nil)))
          (.cons (.elem "body" [] (.cons (.text "Hello   World") .nil)) .nil))) .nil)
      10000 =
    extract_fingerprint
      (.cons (.elem "html" []
        (.cons (.elem "head" []
          (.cons (.elem "title" [] (.cons (.text "My Site") .nil))
            (.cons (.elem "script" [] (.cons (.text "var b=2;") .nil)) .nil)))
          (.cons (.elem "body" [] (.cons (.text "Hello World") .nil)) .nil))) .nil)
      10000 :=
  semantic_extractor_insensitive _ _ 10000 rfl

set_option maxRecDepth 10000 in
/-- C10 counterexample.  Two documents that differ only in whitespace (one
space character inserted inside a `class` attribute value: `ad-banner` versus
`ad -banner`) produce different fingerprints, because the first matches the
noisy selector `[class*="ad-"]` and is stripped while the second is kept.
`strip_ws_forest` removes every whitespace character from text nodes and
attribute values, so its agreement certifies that the documents differ only
in whitespace. -/
theorem semantic_extractor_ws_counterexample :
    strip_ws_forest
        (.cons (.elem "body" []
          (.cons (.elem "div" [("class", "ad-banner")] (.cons (.text "SPONSORED") .nil))
            (.cons (.text "hello") .nil))) .nil) =
      strip_ws_forest
        (.cons (.elem "body" []
          (.cons (.elem "div" [("class", "ad -banner")] (.cons (.text "SPONSORED") .nil))
            (.cons (.text "hello") .nil))) .nil) ∧
    extract_fingerprint
        (.cons (.elem "body" []
          (.cons (.elem "div" [("class", "ad-banner")] (.cons (.text "SPONSORED") .nil))
            (.cons (.text "hello") .nil))) .nil) 10000 ≠
      extract_fingerprint
        (.cons (.elem "body" []
          (.cons (.elem "div" [("class", "ad -banner")] (.cons (.text "SPONSORED") .nil))
            (.cons (.text "hello") .nil))) .nil) 10000 := by
  constructor
  · rfl
  · decide

end LlmsTxt
